import Mathlib

/-!
# go-blockchain: locking scheme (`blockchain/tx.go`) and command layer (`cli/cli.go`)

A shallow embedding of the transaction input/output methods of `blockchain/tx.go` and of the
`createBlockChain`, `getBalance` and `send` commands of `cli/cli.go`, followed by the properties
proved about them.

Conventions of the embedding.

* A Go `[]byte` is a `List Byte`.  The code only observes byte slices through `len`, a slice
  expression and `bytes.Equal`, none of which tells a nil slice from an empty one, so `nil` is `[]`.
* A Go `int` is an `Int` in the range of a 64-bit word; the one place where the code does
  arithmetic on it (the balance loop) wraps explicitly.
* A call either returns or panics (`Outcome`).  A method with a pointer receiver is a function that
  returns the receiver after the call next to the outcome.
* The packages `wallet`, `network` and the rest of `blockchain` are not part of the sources at
  hand.  The value-to-value helpers of `wallet` are parameters (`WalletFns`); every other
  collaborator is an uninterpreted call of the command's call tree (`Prog`).  What happens
  inside a collaborator is not modelled: the environment decides how each call ends.  In an
  `Env` a call returns or panics; a `Handler` is an environment in which every call returns.
-/

namespace GoBlockchain

/-! ## Go runtime -/

/-- One byte. -/
abbrev Byte := UInt8

/-- The value a panicking call carries. -/
inductive Panic where
  /-- The typed error named `InvalidAddress` in the design notes. Nothing in the sources
  constructs it: the code has no typed errors. -/
  | InvalidAddress
  /-- Go's runtime error for a slice expression `s[lo:hi]` out of bounds. -/
  | sliceBounds (lo hi : Int) (len : Nat)
  /-- Go's runtime error for an index expression `s[i]` out of range. -/
  | indexRange (i : Int) (len : Nat)
  /-- The message of `log.Panic`. -/
  | logPanic (msg : String)
  deriving DecidableEq

/-- How a call ends. -/
inductive Outcome (α : Type) where
  | returned (a : α)
  | panicked (p : Panic)
  deriving DecidableEq

/-- The Go slice expression `s[lo:hi]` on a slice of length `s.length`: the runtime requires
`0 ≤ lo ≤ hi ≤ cap(s)` and panics otherwise. Capacity is not tracked; it is at least the length,
and the code never asks for a high bound above the length. -/
def sliceExpr {α : Type} (s : List α) (lo hi : Int) : Outcome (List α) :=
  if 0 ≤ lo ∧ lo ≤ hi ∧ hi ≤ (s.length : Int) then
    .returned ((s.drop lo.toNat).take (hi - lo).toNat)
  else
    .panicked (.sliceBounds lo hi s.length)

/-- Go's `bytes.Equal`: same length and the same byte at every position. -/
def bytesEqual : List Byte → List Byte → Bool
  | [], [] => true
  | x :: xs, y :: ys => x == y && bytesEqual xs ys
  | _, _ => false

/-- The Go conversion `[]byte(s)` of a string: its bytes. -/
def bytesOf (s : String) : List Byte :=
  s.toUTF8.data.toList

/-- Go `int` addition on a 64-bit target: the sum wrapped into `[-2^63, 2^63)`. -/
def wrapInt (x : Int) : Int :=
  (x + 9223372036854775808) % 18446744073709551616 - 9223372036854775808

/-! ## `wallet` helpers used by the code -/

/-- The value-to-value functions of package `wallet` that `tx.go` and `cli.go` call.
The package is not among the sources, so they are parameters. -/
structure WalletFns where
  /-- Counterpart of `wallet.Base58Decode(input []byte) []byte`. -/
  Base58Decode : List Byte → List Byte
  /-- Counterpart of `wallet.PublicKeyHash(pubKey []byte) []byte`. -/
  PublicKeyHash : List Byte → List Byte
  /-- Counterpart of `wallet.ValidateAddress(address string) bool`. -/
  ValidateAddress : String → Bool

/-! ## `blockchain/tx.go` -/

/-- Go struct `TxInput`. -/
structure TxInput where
  ID : List Byte
  Out : Int
  Signature : List Byte
  PubKey : List Byte
  deriving DecidableEq

/-- Go struct `TxOutput`. -/
structure TxOutput where
  Value : Int
  PubKeyHash : List Byte
  deriving DecidableEq

/-- Method `(in *TxInput) UsesKey(pubKeyHash []byte) bool`: the result and the receiver after the
call. -/
def UsesKey (W : WalletFns) (inp : TxInput) (pubKeyHash : List Byte) : Bool × TxInput :=
  let lockingHash := W.PublicKeyHash inp.PubKey
  (bytesEqual lockingHash pubKeyHash, inp)

/-- Method `(out *TxOutput) Lock(address []byte)`: the outcome and the receiver after the call.
The assignment to `out.PubKeyHash` comes after the slice expression, so a panic there leaves the
receiver as it was. -/
def Lock (W : WalletFns) (out : TxOutput) (address : List Byte) : Outcome Unit × TxOutput :=
  let pubKeyHash := W.Base58Decode address
  match sliceExpr pubKeyHash 1 ((pubKeyHash.length : Int) - 4) with
  | .panicked p => (.panicked p, out)
  | .returned pubKeyHash => (.returned (), { out with PubKeyHash := pubKeyHash })

/-- Method `(out *TxOutput) IsLockedWithKey(pubKeyHash []byte) bool`: the result and the receiver
after the call. -/
def IsLockedWithKey (out : TxOutput) (pubKeyHash : List Byte) : Bool × TxOutput :=
  (bytesEqual out.PubKeyHash pubKeyHash, out)

/-- Function `NewTxOutput(value int, address string) *TxOutput`. -/
def NewTxOutput (W : WalletFns) (value : Int) (address : String) : Outcome TxOutput :=
  let txo : TxOutput := { Value := value, PubKeyHash := [] }
  match Lock W txo (bytesOf address) with
  | (.panicked p, _) => .panicked p
  | (.returned (), txo) => .returned txo

/-! ## Calls into the packages that are not at hand -/

/-- The Go types of the absent packages that the commands pass around. -/
structure Sig where
  /-- Counterpart of `*blockchain.BlockChain`. -/
  Chain : Type
  /-- Counterpart of `*blockchain.Transaction`. -/
  Tx : Type
  /-- Counterpart of `*blockchain.Block`. -/
  Block : Type
  /-- Counterpart of `*wallet.Wallets`. -/
  Wallets : Type
  /-- Counterpart of `wallet.Wallet`. -/
  Wallet : Type

/-- An argument of a `fmt.Printf` call. -/
inductive PrintArg where
  | str (s : String)
  | int (n : Int)
  deriving DecidableEq

/-- The calls the commands make into `blockchain`, `wallet`, `network` and `fmt`, with their
arguments. A `blockchain.UTXOSet` is a struct around the chain pointer, so the methods of
`UTXOSet{chain}` take `chain`. -/
inductive Call (S : Sig) where
  /-- The call `blockchain.ContinueBlockChain(nodeId)`. -/
  | ContinueBlockChain (nodeId : String)
  /-- The call `blockchain.InitBlockChain(address, nodeId)`. -/
  | InitBlockChain (address nodeId : String)
  /-- The call `chain.Database.Close()`. -/
  | DatabaseClose (chain : S.Chain)
  /-- The call `UTXOSet.Reindex()`. -/
  | Reindex (chain : S.Chain)
  /-- The call `UTXOSet.FindUnspentTransactions(pubKeyHash)`. -/
  | FindUnspentTransactions (chain : S.Chain) (pubKeyHash : List Byte)
  /-- The call `UTXOSet.Update(block)`. -/
  | Update (chain : S.Chain) (block : S.Block)
  /-- The call `chain.MineBlock(txs)`. -/
  | MineBlock (chain : S.Chain) (txs : List S.Tx)
  /-- The call `blockchain.NewTransaction(&wallet, to, amount, &UTXOSet)`. -/
  | NewTransaction (wallet : S.Wallet) (toAddr : String) (amount : Int) (chain : S.Chain)
  /-- The call `blockchain.CoinbaseTx(to, data)`. -/
  | CoinbaseTx (toAddr data : String)
  /-- The call `wallet.CreateWallets(nodeId)`. -/
  | CreateWallets (nodeId : String)
  /-- The call `wallets.GetWallet(address)`. -/
  | GetWallet (wallets : S.Wallets) (address : String)
  /-- A read of the package variable `network.KnownNodes`. -/
  | KnownNodes
  /-- The call `network.SendTx(addr, tx)`. -/
  | SendTx (addr : String) (tx : S.Tx)
  /-- The call `fmt.Printf(format, args...)`. -/
  | Printf (format : String) (args : List PrintArg)
  /-- The call `fmt.Println(s)`. -/
  | Println (s : String)

/-- What each call hands back. An `error` is its message, `none` for `nil`. -/
def Call.Resp {S : Sig} : Call S → Type
  | .ContinueBlockChain _ => S.Chain
  | .InitBlockChain _ _ => S.Chain
  | .DatabaseClose _ => Unit
  | .Reindex _ => Unit
  | .FindUnspentTransactions _ _ => List TxOutput
  | .Update _ _ => Unit
  | .MineBlock _ _ => S.Block
  | .NewTransaction _ _ _ _ => S.Tx
  | .CoinbaseTx _ _ => S.Tx
  | .CreateWallets _ => S.Wallets × Option String
  | .GetWallet _ _ => S.Wallet
  | .KnownNodes => List String
  | .SendTx _ _ => Unit
  | .Printf _ _ => Unit
  | .Println _ => Unit

/-- A command as the tree of calls it makes: it returns, panics, or makes a call and goes on
from the way the call ended. -/
inductive Prog (S : Sig) (α : Type) where
  | ret (a : α)
  | panic (p : Panic)
  | call (c : Call S) (k : Outcome c.Resp → Prog S α)

namespace Prog

/-- Sequencing: a panic skips what follows. -/
def bind {S : Sig} {α β : Type} : Prog S α → (α → Prog S β) → Prog S β
  | .ret a, f => f a
  | .panic p, _ => .panic p
  | .call c k, f => .call c (fun o => (k o).bind f)

instance {S : Sig} : Monad (Prog S) where
  pure := Prog.ret
  bind := Prog.bind

/-- A single call: what it hands back when it returns, its panic when it panics. -/
def perform {S : Sig} (c : Call S) : Prog S c.Resp :=
  .call c fun o =>
    match o with
    | .returned r => .ret r
    | .panicked p => .panic p

/-- Go's `defer d` in front of `body`: `d` runs when `body` returns and also when it panics; the
panic then goes on, unless `d` panics itself. -/
def defer {S : Sig} {α : Type} (d : Prog S Unit) : Prog S α → Prog S α
  | .ret a => d.bind (fun _ => .ret a)
  | .panic p => d.bind (fun _ => .panic p)
  | .call c k => .call c (fun o => defer d (k o))

end Prog

/-- A call together with what it handed back. -/
structure Step (S : Sig) where
  call : Call S
  resp : call.Resp

/-- An environment in which every call returns: what each call hands back and how it changes
the state `σ` of the world (database, wallet file, network, terminal). -/
abbrev Handler (S : Sig) (σ : Type) := (c : Call S) → σ → c.Resp × σ

/-- What running a command leaves behind. -/
structure Run (S : Sig) (σ α : Type) where
  /-- The calls made, in order, with their answers. -/
  trace : List (Step S)
  outcome : Outcome α
  state : σ

/-- Runs a command from a state of the world in an environment in which every call returns. -/
def Prog.run {S : Sig} {σ α : Type} (h : Handler S σ) : Prog S α → σ → Run S σ α
  | .ret a, s => { trace := [], outcome := .returned a, state := s }
  | .panic p, s => { trace := [], outcome := .panicked p, state := s }
  | .call c k, s =>
    let rest := (k (.returned (h c s).1)).run h (h c s).2
    { rest with trace := { call := c, resp := (h c s).1 } :: rest.trace }

/-- A call together with the way it ended. -/
structure Event (S : Sig) where
  call : Call S
  result : Outcome call.Resp

/-- The environment of a command in general: each call returns something or panics, and changes
the state `σ` of the world. -/
abbrev Env (S : Sig) (σ : Type) := (c : Call S) → σ → Outcome c.Resp × σ

/-- What executing a command leaves behind. -/
structure Exec (S : Sig) (σ α : Type) where
  /-- The calls made, in order, with the way each ended. -/
  trace : List (Event S)
  outcome : Outcome α
  state : σ

/-- Executes a command from a state of the world in an environment. -/
def Prog.exec {S : Sig} {σ α : Type} (env : Env S σ) : Prog S α → σ → Exec S σ α
  | .ret a, s => { trace := [], outcome := .returned a, state := s }
  | .panic p, s => { trace := [], outcome := .panicked p, state := s }
  | .call c k, s =>
    let rest := (k (env c s).1).exec env (env c s).2
    { rest with trace := { call := c, result := (env c s).1 } :: rest.trace }

/-- Is the call a `MineBlock`. -/
def Call.isMineBlock {S : Sig} : Call S → Bool
  | .MineBlock _ _ => true
  | _ => false

/-- Is the call a `UTXOSet.Update`. -/
def Call.isUpdate {S : Sig} : Call S → Bool
  | .Update _ _ => true
  | _ => false

/-! ## `cli/cli.go` -/

/-- Method `(cli *CommandLine) createBlockChain(address, nodeId string)`. -/
def createBlockChain {S : Sig} (W : WalletFns) (address nodeId : String) : Prog S Unit := do
  if !W.ValidateAddress address then
    Prog.panic (.logPanic "Address is not valid")
  let chain ← Prog.perform (.InitBlockChain address nodeId)
  Prog.defer (Prog.perform (.DatabaseClose chain)) do
    Prog.perform (.Reindex chain)
    Prog.perform (.Println "Done!")

/-- Method `(cli *CommandLine) getBalance(address, nodeId string)`. -/
def getBalance {S : Sig} (W : WalletFns) (address nodeId : String) : Prog S Unit := do
  if !W.ValidateAddress address then
    Prog.panic (.logPanic "Address is not valid")
  let chain ← Prog.perform (.ContinueBlockChain nodeId)
  Prog.defer (Prog.perform (.DatabaseClose chain)) do
    let balance : Int := 0
    let pubKeyHash := W.Base58Decode (bytesOf address)
    match sliceExpr pubKeyHash 1 ((pubKeyHash.length : Int) - 4) with
    | .panicked p => Prog.panic p
    | .returned pubKeyHash =>
      let UTXOs ← Prog.perform (.FindUnspentTransactions chain pubKeyHash)
      let balance := UTXOs.foldl (fun balance out => wrapInt (balance + out.Value)) balance
      Prog.perform (.Printf "Balance of %s: %d\n" [.str address, .int balance])

/-- Method `(cli *CommandLine) send(from, to string, amount int, nodeId string, mineNow bool)`;
the parameters `from` and `to` are `fromAddr` and `toAddr`. -/
def send {S : Sig} (W : WalletFns) (fromAddr toAddr : String) (amount : Int) (nodeId : String)
    (mineNow : Bool) : Prog S Unit := do
  if !W.ValidateAddress fromAddr then
    Prog.panic (.logPanic "Sender Address is not valid")
  if !W.ValidateAddress toAddr then
    Prog.panic (.logPanic "Reciever Address is not valid")
  let chain ← Prog.perform (.ContinueBlockChain nodeId)
  Prog.defer (Prog.perform (.DatabaseClose chain)) do
    let (wallets, err) ← Prog.perform (.CreateWallets nodeId)
    match err with
    | some e => Prog.panic (.logPanic e)
    | none =>
      let wallet ← Prog.perform (.GetWallet wallets fromAddr)
      let tx ← Prog.perform (.NewTransaction wallet toAddr amount chain)
      if mineNow then
        let cbTx ← Prog.perform (.CoinbaseTx fromAddr "")
        let txs := [cbTx, tx]
        let block ← Prog.perform (.MineBlock chain txs)
        Prog.perform (.Update chain block)
      else
        let nodes ← Prog.perform .KnownNodes
        match nodes with
        | [] => Prog.panic (.indexRange 0 0)
        | node :: _ => Prog.perform (.SendTx node tx)
        Prog.perform (.Println "Send Tx")
      Prog.perform (.Println "Success")

/-! ## Reading a trace -/

/-- The integers a call prints: the `%d` arguments of a `Printf`. -/
def Call.printedInts {S : Sig} : Call S → List Int
  | .Printf _ args => args.filterMap fun a =>
      match a with
      | .int n => some n
      | .str _ => none
  | _ => []

/-- The integers printed along a trace, in order. -/
def printedInts {S : Sig} : List (Step S) → List Int
  | [] => []
  | st :: rest => st.call.printedInts ++ printedInts rest

/-- The outputs a step hands back, when it is a `FindUnspentTransactions`. -/
def Step.found {S : Sig} : Step S → List TxOutput
  | { call := .FindUnspentTransactions _ _, resp := r } => r
  | _ => []

/-- The outputs handed back by the `FindUnspentTransactions` calls of a trace, in order. -/
def foundOutputs {S : Sig} : List (Step S) → List TxOutput
  | [] => []
  | st :: rest => st.found ++ foundOutputs rest

/-- The calls of a trace of events, without the way they ended. -/
def callsMade {S : Sig} (t : List (Event S)) : List (Call S) :=
  t.map Event.call

/-- Did the call of the event return. -/
def Event.isReturned {S : Sig} (ev : Event S) : Bool :=
  match ev.result with
  | .returned _ => true
  | .panicked _ => false

/-- Did every call of the trace return. -/
def allReturned {S : Sig} (t : List (Event S)) : Bool :=
  t.all Event.isReturned

/-- The number of `MineBlock` calls of a trace. -/
def minedBlocks {S : Sig} (t : List (Event S)) : Nat :=
  ((callsMade t).filter Call.isMineBlock).length

/-- The number of `UTXOSet.Update` calls of a trace. -/
def indexUpdates {S : Sig} (t : List (Event S)) : Nat :=
  ((callsMade t).filter Call.isUpdate).length

/-- Is the call one that writes the chain or the UTXO index: `InitBlockChain`, `MineBlock`,
`Reindex` or `Update`. -/
def Call.writesLedger {S : Sig} : Call S → Bool
  | .InitBlockChain _ _ => true
  | .MineBlock _ _ => true
  | .Reindex _ => true
  | .Update _ _ => true
  | _ => false

/-- The transactions a call is handed: those of a `MineBlock`, the one of a `SendTx`. -/
def Call.handedTxs {S : Sig} : Call S → List S.Tx
  | .MineBlock _ txs => txs
  | .SendTx _ tx => [tx]
  | _ => []

/-- Is the call a `network.SendTx`. -/
def Call.isSendTx {S : Sig} : Call S → Bool
  | .SendTx _ _ => true
  | _ => false

/-- The error an event hands back, when it is a `CreateWallets` that returns one. -/
def Event.walletErr {S : Sig} : Event S → Option String
  | { call := .CreateWallets _, result := .returned r } => r.2
  | _ => none

/-- The first error handed back by a `CreateWallets` call of a trace, `none` when there is
none. -/
def walletError {S : Sig} : List (Event S) → Option String
  | [] => none
  | ev :: rest =>
    match ev.walletErr with
    | some e => some e
    | none => walletError rest

/-! ## A small environment for worked examples -/

/-- A stand-in for package `wallet` in the worked examples: decoding hands the bytes back as they
are, the hash of a key is the key reversed, and an address is valid when it has at least five
bytes. -/
def sampleWallet : WalletFns where
  Base58Decode := fun input => input
  PublicKeyHash := fun pubKey => pubKey.reverse
  ValidateAddress := fun address => decide (5 ≤ (bytesOf address).length)

/-- The types of the worked examples: a chain is the node it belongs to, a transaction a label,
a block its transactions, a wallet its address. -/
abbrev sampleSig : Sig where
  Chain := String
  Tx := String
  Block := List String
  Wallets := String
  Wallet := String

/-- The state of the world in the worked examples. -/
structure SampleWorld where
  /-- The unspent outputs of the index. -/
  utxos : List TxOutput
  /-- The error of loading the wallet file, if any. -/
  walletErr : Option String
  /-- The known nodes of the network. -/
  nodes : List String
  /-- The blocks mined so far. -/
  blocks : List (List String)

/-- The environment of the worked examples. -/
def sampleHandler : Handler sampleSig SampleWorld
  | .ContinueBlockChain nodeId, w => (nodeId, w)
  | .InitBlockChain _ nodeId, w => (nodeId, w)
  | .DatabaseClose _, w => ((), w)
  | .Reindex _, w => ((), w)
  | .FindUnspentTransactions _ pubKeyHash, w =>
    (w.utxos.filter fun out => bytesEqual out.PubKeyHash pubKeyHash, w)
  | .Update _ _, w => ((), w)
  | .MineBlock _ txs, w => (txs, { w with blocks := w.blocks ++ [(txs : List String)] })
  | .NewTransaction wallet toAddr _ _, w => (String.append wallet (" pays " ++ toAddr), w)
  | .CoinbaseTx toAddr _, w => ("reward to " ++ toAddr, w)
  | .CreateWallets nodeId, w => ((nodeId, w.walletErr), w)
  | .GetWallet _ address, w => (address, w)
  | .KnownNodes, w => (w.nodes, w)
  | .SendTx _ _, w => ((), w)
  | .Printf _ _, w => ((), w)
  | .Println _, w => ((), w)

/-- The spendable total of an address in the worked examples: the values of the unspent outputs
locked with the hash embedded in the address. -/
def sampleFunds (w : SampleWorld) (address : String) : Int :=
  ((w.utxos.filter fun out => bytesEqual out.PubKeyHash
    (((bytesOf address).drop 1).take ((bytesOf address).length - 5))).map TxOutput.Value).sum

/-- The environment of the worked examples with calls that may panic: it answers as
`sampleHandler` does, but `NewTransaction` panics when the sender's spendable total is below the
amount. -/
def sampleEnv : Env sampleSig SampleWorld
  | .NewTransaction wallet toAddr amount _, w =>
    if amount ≤ sampleFunds w wallet then
      (.returned (String.append wallet (" pays " ++ toAddr)), w)
    else
      (.panicked (.logPanic "Error: not enough funds"), w)
  | c, w => (.returned (sampleHandler c w).1, (sampleHandler c w).2)

/-- A world whose index holds two outputs of `2^62` locked with the hash `[98]`, the hash
embedded in the address `"abcdef"` under `sampleWallet`. -/
def richWorld : SampleWorld where
  utxos := [{ Value := 4611686018427387904, PubKeyHash := [98] },
            { Value := 4611686018427387904, PubKeyHash := [98] }]
  walletErr := none
  nodes := ["localhost:3000"]
  blocks := []

/-- A world whose wallet file cannot be loaded. -/
def noWalletWorld : SampleWorld where
  utxos := []
  walletErr := some "open wallet file: no such file or directory"
  nodes := ["localhost:3000"]
  blocks := []


/-! ## Go runtime: lemmas -/

theorem bytesEqual_iff (a b : List Byte) : bytesEqual a b = true ↔ a = b := by
  induction a generalizing b with
  | nil => cases b <;> simp [bytesEqual]
  | cons x xs ih => cases b <;> simp [bytesEqual, ih]

theorem list_eq_iff_getElem? {α : Type} (a b : List α) :
    a = b ↔ a.length = b.length ∧ ∀ i : Nat, a[i]? = b[i]? := by
  constructor
  · rintro rfl
    exact ⟨rfl, fun _ => rfl⟩
  · rintro ⟨_, h⟩
    exact List.ext_getElem? h

theorem sliceExpr_of_five_le {α : Type} (d : List α) (h : 5 ≤ d.length) :
    sliceExpr d 1 ((d.length : Int) - 4) = .returned ((d.drop 1).take (d.length - 5)) := by
  unfold sliceExpr
  have h1 : (0 : Int) ≤ 1 ∧ (1 : Int) ≤ (d.length : Int) - 4 ∧
      (d.length : Int) - 4 ≤ (d.length : Int) := by omega
  have h2 : ((d.length : Int) - 4 - 1).toNat = d.length - 5 := by omega
  rw [if_pos h1, h2]
  rfl

theorem sliceExpr_of_lt_five {α : Type} (d : List α) (h : d.length < 5) :
    sliceExpr d 1 ((d.length : Int) - 4) =
      .panicked (.sliceBounds 1 ((d.length : Int) - 4) d.length) := by
  unfold sliceExpr
  have h1 : ¬ ((0 : Int) ≤ 1 ∧ (1 : Int) ≤ (d.length : Int) - 4 ∧
      (d.length : Int) - 4 ≤ (d.length : Int)) := by omega
  rw [if_neg h1]

theorem strip_decompose {α : Type} (d : List α) (h : 5 ≤ d.length) :
    ∃ v cs, cs.length = 4 ∧ d = v :: ((d.drop 1).take (d.length - 5) ++ cs) := by
  cases d with
  | nil => simp at h
  | cons v t =>
    refine ⟨v, t.drop (t.length - 4), ?_, ?_⟩
    · simp at h ⊢
      omega
    · simp only [List.drop_succ_cons, List.drop_zero, List.length_cons]
      have : t.length + 1 - 5 = t.length - 4 := by omega
      rw [this, List.take_append_drop]

theorem strip_of_decomposed {α : Type} (d : List α) (v : α) (hash cs : List α)
    (hcs : cs.length = 4) (hd : d = v :: (hash ++ cs)) :
    5 ≤ d.length ∧ (d.drop 1).take (d.length - 5) = hash := by
  subst hd
  constructor
  · simp [hcs]
  · have : (v :: (hash ++ cs)).length - 5 = hash.length := by simp [hcs]
    rw [this]
    simp


/-- C1: for every output and every byte string `h`, `IsLockedWithKey` answers true exactly when
the output's `PubKeyHash` equals `h` byte for byte (same length, same byte at every position),
and the output is left as it was. -/
theorem IsLockedWithKey_spec (out : TxOutput) (h : List Byte) :
    ((IsLockedWithKey out h).1 = true ↔ out.PubKeyHash = h) ∧
    ((IsLockedWithKey out h).1 = true ↔
      out.PubKeyHash.length = h.length ∧ ∀ i : Nat, out.PubKeyHash[i]? = h[i]?) ∧
    (IsLockedWithKey out h).2 = out := by
  refine ⟨?_, ?_, rfl⟩
  · exact bytesEqual_iff _ _
  · exact (bytesEqual_iff _ _).trans (list_eq_iff_getElem? _ _)

theorem Lock_of_five_le (W : WalletFns) (out : TxOutput) (address : List Byte)
    (h5 : 5 ≤ (W.Base58Decode address).length) :
    Lock W out address = (.returned (), TxOutput.mk out.Value
      (((W.Base58Decode address).drop 1).take ((W.Base58Decode address).length - 5))) := by
  simp only [Lock, sliceExpr_of_five_le _ h5]

theorem Lock_of_lt_five (W : WalletFns) (out : TxOutput) (address : List Byte)
    (h5 : (W.Base58Decode address).length < 5) :
    Lock W out address = (.panicked (.sliceBounds 1 (((W.Base58Decode address).length : Int) - 4)
      (W.Base58Decode address).length), out) := by
  simp only [Lock, sliceExpr_of_lt_five _ h5]

/-- C2: for every address whose Base58 decoding `d` has at least 5 bytes, `Lock` returns and
sets `PubKeyHash` to `d` without its first byte and its last 4 bytes -- the bytes `d[1]` to
`d[len(d)-5]`, `len(d)-5` of them -- and leaves `Value` as it was. -/
theorem Lock_stores_stripped_payload (W : WalletFns) (out : TxOutput) (address : List Byte)
    (h5 : 5 ≤ (W.Base58Decode address).length) :
    (Lock W out address).1 = .returned () ∧
    (Lock W out address).2.Value = out.Value ∧
    (∃ v cs, cs.length = 4 ∧
      W.Base58Decode address = v :: ((Lock W out address).2.PubKeyHash ++ cs)) ∧
    (∀ v hash cs, cs.length = 4 → W.Base58Decode address = v :: (hash ++ cs) →
      (Lock W out address).2.PubKeyHash = hash) ∧
    (Lock W out address).2.PubKeyHash.length = (W.Base58Decode address).length - 5 ∧
    (∀ i : Nat, i < (W.Base58Decode address).length - 5 →
      (Lock W out address).2.PubKeyHash[i]? = (W.Base58Decode address)[i + 1]?) := by
  rw [Lock_of_five_le W out address h5]
  refine ⟨rfl, rfl, strip_decompose _ h5, ?_, ?_, ?_⟩
  · intro v hash cs hcs hd
    exact (strip_of_decomposed _ v hash cs hcs hd).2
  · simp only [List.length_take, List.length_drop]
    omega
  · intro i hi
    simp only [List.getElem?_take, hi, if_true, List.getElem?_drop]
    congr 1
    omega


/-- C3 (as the code has it): `Lock` stops exactly when the Base58-decoded payload has fewer than
the 5 bytes of version and checksum; it then stops with Go's runtime panic of the slice
expression `[1 : len-4]`, never with a typed `InvalidAddress` error, and the receiver (its
`PubKeyHash` included) is as before the call; on every payload of 5 bytes or more it returns. -/
theorem Lock_panics_iff_short (W : WalletFns) (out : TxOutput) (address : List Byte) :
    ((∃ p, (Lock W out address).1 = .panicked p) ↔ (W.Base58Decode address).length < 5) ∧
    ((W.Base58Decode address).length < 5 →
      (Lock W out address).1 = .panicked (.sliceBounds 1
        (((W.Base58Decode address).length : Int) - 4) (W.Base58Decode address).length) ∧
      (Lock W out address).2 = out) ∧
    (5 ≤ (W.Base58Decode address).length → (Lock W out address).1 = .returned ()) ∧
    (Lock W out address).1 ≠ .panicked .InvalidAddress := by
  rcases Nat.lt_or_ge (W.Base58Decode address).length 5 with h | h
  · rw [Lock_of_lt_five W out address h]
    refine ⟨⟨fun _ => h, fun _ => ⟨_, rfl⟩⟩, fun _ => ⟨rfl, rfl⟩, fun h5 => ?_, ?_⟩
    · omega
    · simp
  · rw [Lock_of_five_le W out address h]
    refine ⟨⟨?_, fun hlt => ?_⟩, fun hlt => ?_, fun _ => rfl, ?_⟩
    · rintro ⟨p, hp⟩
      simp at hp
    · omega
    · omega
    · simp

/-- C3, the claim as worded fails: on the 3-byte payload `[0, 1, 2]` the call stops with the
runtime panic `slice bounds out of range [1:-1]`, which is not an `InvalidAddress` error. -/
theorem Lock_short_payload_runtime_panic :
    (sampleWallet.Base58Decode [0, 1, 2]).length < 5 ∧
    (Lock sampleWallet { Value := 7, PubKeyHash := [9] } [0, 1, 2]).1 =
      .panicked (.sliceBounds 1 (-1) 3) ∧
    (Lock sampleWallet { Value := 7, PubKeyHash := [9] } [0, 1, 2]).1 ≠
      .panicked .InvalidAddress := by
  decide

/-- C4: for addresses `A` and `B` whose decodings have at least 5 bytes, with the hash of an
address being what the slice expression of `getBalance` yields (the decoding without its first
byte and last 4 bytes), an output locked with `Lock(A)` is locked with the hash of `B` exactly
when the two hashes are equal: it is locked with the hash of `A`, and not with any hash that
differs from it. -/
theorem Lock_IsLockedWithKey_roundtrip (W : WalletFns) (out : TxOutput) (A B : List Byte)
    (hA : 5 ≤ (W.Base58Decode A).length) (hB : 5 ≤ (W.Base58Decode B).length) :
    ∃ hashA hashB,
      sliceExpr (W.Base58Decode A) 1 (((W.Base58Decode A).length : Int) - 4) = .returned hashA ∧
      sliceExpr (W.Base58Decode B) 1 (((W.Base58Decode B).length : Int) - 4) = .returned hashB ∧
      (∃ v cs, cs.length = 4 ∧ W.Base58Decode A = v :: (hashA ++ cs)) ∧
      (∃ v cs, cs.length = 4 ∧ W.Base58Decode B = v :: (hashB ++ cs)) ∧
      (Lock W out A).1 = .returned () ∧
      ((IsLockedWithKey (Lock W out A).2 hashB).1 = true ↔ hashA = hashB) ∧
      (IsLockedWithKey (Lock W out A).2 hashA).1 = true ∧
      (hashA ≠ hashB → (IsLockedWithKey (Lock W out A).2 hashB).1 = false) := by
  refine ⟨_, _, sliceExpr_of_five_le _ hA, sliceExpr_of_five_le _ hB, strip_decompose _ hA,
    strip_decompose _ hB, ?_⟩
  rw [Lock_of_five_le W out A hA]
  refine ⟨rfl, bytesEqual_iff _ _, (bytesEqual_iff _ _).2 rfl, fun hne => ?_⟩
  cases hb : (IsLockedWithKey (TxOutput.mk out.Value (((W.Base58Decode A).drop 1).take
      ((W.Base58Decode A).length - 5))) (((W.Base58Decode B).drop 1).take
      ((W.Base58Decode B).length - 5))).1 with
  | false => rfl
  | true => exact absurd ((bytesEqual_iff _ _).1 hb) hne

/-- C5: for every input and every byte string `h`, `UsesKey` answers true exactly when
`wallet.PublicKeyHash` of the input's `PubKey` equals `h` byte for byte; the answer is the same
whatever `ID`, `Out` and `Signature` are, and the input is left as it was. -/
theorem UsesKey_spec (W : WalletFns) (inp : TxInput) (h : List Byte) :
    ((UsesKey W inp h).1 = true ↔ W.PublicKeyHash inp.PubKey = h) ∧
    ((UsesKey W inp h).1 = true ↔
      (W.PublicKeyHash inp.PubKey).length = h.length ∧
        ∀ i : Nat, (W.PublicKeyHash inp.PubKey)[i]? = h[i]?) ∧
    (∀ (id sig : List Byte) (n : Int),
      (UsesKey W { ID := id, Out := n, Signature := sig, PubKey := inp.PubKey } h).1 =
        (UsesKey W inp h).1) ∧
    (UsesKey W inp h).2 = inp := by
  refine ⟨bytesEqual_iff _ _, (bytesEqual_iff _ _).trans (list_eq_iff_getElem? _ _), ?_, rfl⟩
  intro id sig n
  rfl

/-- C9 (as the code has it): for every integer `value` and every address accepted by `Lock`,
`NewTxOutput(value, address)` returns an output whose `Value` is `value` itself, so it is
non-negative exactly when `value` is; its `PubKeyHash` is the one `Lock` stores. -/
theorem NewTxOutput_keeps_value (W : WalletFns) (value : Int) (address : String)
    (hacc : (Lock W { Value := value, PubKeyHash := [] } (bytesOf address)).1 = .returned ()) :
    ∃ txo, NewTxOutput W value address = .returned txo ∧
      txo.Value = value ∧ (0 ≤ txo.Value ↔ 0 ≤ value) ∧
      txo = (Lock W { Value := value, PubKeyHash := [] } (bytesOf address)).2 := by
  have h5 : 5 ≤ (W.Base58Decode (bytesOf address)).length := by
    by_contra hlt
    rw [Lock_of_lt_five W _ _ (Nat.lt_of_not_ge hlt)] at hacc
    simp at hacc
  refine ⟨_, ?_, ?_, ?_, rfl⟩
  · simp only [NewTxOutput, Lock_of_five_le W _ _ h5]
  · rw [Lock_of_five_le W _ _ h5]
  · rw [Lock_of_five_le W _ _ h5]

/-- C9, the claim as worded fails: `NewTxOutput(-1, "abcdef")` is accepted by `Lock` and returns
an output whose `Value` is `-1`. -/
theorem NewTxOutput_negative_value :
    (Lock sampleWallet { Value := -1, PubKeyHash := [] } (bytesOf "abcdef")).1 = .returned () ∧
    NewTxOutput sampleWallet (-1) "abcdef" = .returned { Value := -1, PubKeyHash := [98] } ∧
    (TxOutput.mk (-1) [98]).Value < 0 := by
  decide

/-- C10: `Lock` checks neither version nor checksum. For two addresses whose decodings have the
same length, at least 5, and the same byte at every position but the first and the last 4,
`Lock` stores the same `PubKeyHash`, so `IsLockedWithKey` answers alike on the two outputs for
every hash. -/
theorem Lock_ignores_version_and_checksum (W : WalletFns) (out₁ out₂ : TxOutput)
    (A B : List Byte)
    (hlen : (W.Base58Decode A).length = (W.Base58Decode B).length)
    (h5 : 5 ≤ (W.Base58Decode A).length)
    (hmid : ∀ i : Nat, 1 ≤ i → i < (W.Base58Decode A).length - 4 →
      (W.Base58Decode A)[i]? = (W.Base58Decode B)[i]?) :
    (Lock W out₁ A).1 = .returned () ∧ (Lock W out₂ B).1 = .returned () ∧
    (Lock W out₁ A).2.PubKeyHash = (Lock W out₂ B).2.PubKeyHash ∧
    ∀ h, (IsLockedWithKey (Lock W out₁ A).2 h).1 = (IsLockedWithKey (Lock W out₂ B).2 h).1 := by
  have h5B : 5 ≤ (W.Base58Decode B).length := hlen ▸ h5
  have key : ((W.Base58Decode A).drop 1).take ((W.Base58Decode A).length - 5) =
      ((W.Base58Decode B).drop 1).take ((W.Base58Decode B).length - 5) := by
    rw [← hlen]
    apply List.ext_getElem?
    intro i
    simp only [List.getElem?_take, List.getElem?_drop]
    split
    · apply hmid <;> omega
    · rfl
  rw [Lock_of_five_le W out₁ A h5, Lock_of_five_le W out₂ B h5B]
  refine ⟨rfl, rfl, key, fun h => ?_⟩
  simp only [IsLockedWithKey, key]


/-! ## Call trees: lemmas -/

theorem Prog.bind_eq {S : Sig} {α β : Type} (x : Prog S α) (f : α → Prog S β) :
    x >>= f = x.bind f := rfl

theorem Prog.pure_eq {S : Sig} {α : Type} (a : α) : (pure a : Prog S α) = .ret a := rfl

theorem wrapInt_add_wrapInt (a c : Int) : wrapInt (wrapInt a + c) = wrapInt (a + c) := by
  unfold wrapInt
  omega

theorem wrapInt_of_fits (x : Int) (hlo : -9223372036854775808 ≤ x)
    (hhi : x < 9223372036854775808) : wrapInt x = x := by
  unfold wrapInt
  omega

theorem wrapInt_range (x : Int) :
    -9223372036854775808 ≤ wrapInt x ∧ wrapInt x < 9223372036854775808 ∧
    (18446744073709551616 : Int) ∣ wrapInt x - x := by
  unfold wrapInt
  refine ⟨by omega, by omega, ?_⟩
  omega

theorem balance_loop (UTXOs : List TxOutput) (b : Int) :
    UTXOs.foldl (fun balance out => wrapInt (balance + out.Value)) (wrapInt b) =
      wrapInt (b + (UTXOs.map TxOutput.Value).sum) := by
  induction UTXOs generalizing b with
  | nil => simp
  | cons o rest ih =>
    simp only [List.foldl_cons, List.map_cons, List.sum_cons]
    rw [wrapInt_add_wrapInt, ih, add_assoc]

theorem balance_loop_zero (UTXOs : List TxOutput) :
    UTXOs.foldl (fun balance out => wrapInt (balance + out.Value)) 0 =
      wrapInt (UTXOs.map TxOutput.Value).sum := by
  have h := balance_loop UTXOs 0
  rw [zero_add] at h
  exact h

theorem getBalance_trace {S : Sig} {σ : Type} (W : WalletFns) (h : Handler S σ) (s : σ)
    (address nodeId : String) (hvalid : W.ValidateAddress address = true)
    (h5 : 5 ≤ (W.Base58Decode (bytesOf address)).length) :
    ∃ chain UTXOs,
      ((getBalance W address nodeId).run h s).trace =
        [{ call := .ContinueBlockChain nodeId, resp := chain },
         { call := .FindUnspentTransactions chain
            (((W.Base58Decode (bytesOf address)).drop 1).take
              ((W.Base58Decode (bytesOf address)).length - 5)), resp := UTXOs },
         { call := .Printf "Balance of %s: %d\n"
            [.str address, .int (wrapInt (UTXOs.map TxOutput.Value).sum)], resp := () },
         { call := .DatabaseClose chain, resp := () }] ∧
      ((getBalance W address nodeId).run h s).outcome = .returned () := by
  simp only [getBalance, hvalid, Prog.bind_eq, Prog.pure_eq, Prog.perform, Prog.bind,
    Prog.defer, Prog.run, sliceExpr_of_five_le _ h5, Bool.not_true, Bool.false_eq_true,
    if_false]
  rw [balance_loop_zero]
  exact ⟨_, _, rfl, rfl⟩

/-- C6 (as the code has it): for every valid address whose decoding embeds a public-key hash
(at least 5 bytes), `getBalance` opens the chain, asks `FindUnspentTransactions` once, with the
decoding without its first byte and last 4 bytes, and reports as balance the sum of the `Value`
fields of the outputs handed back as Go `int` addition computes it: the sum wrapped to 64 bits,
which is the sum itself whenever that fits a Go `int`, and 0 when no output is handed back. -/
theorem getBalance_reports_wrapped_sum {S : Sig} {σ : Type} (W : WalletFns) (h : Handler S σ)
    (s : σ) (address nodeId : String) (hvalid : W.ValidateAddress address = true)
    (h5 : 5 ≤ (W.Base58Decode (bytesOf address)).length) :
    ∃ chain hash UTXOs,
      (∃ v cs, cs.length = 4 ∧ W.Base58Decode (bytesOf address) = v :: (hash ++ cs)) ∧
      ((getBalance W address nodeId).run h s).trace =
        [{ call := .ContinueBlockChain nodeId, resp := chain },
         { call := .FindUnspentTransactions chain hash, resp := UTXOs },
         { call := .Printf "Balance of %s: %d\n"
            [.str address, .int (wrapInt (UTXOs.map TxOutput.Value).sum)], resp := () },
         { call := .DatabaseClose chain, resp := () }] ∧
      ((getBalance W address nodeId).run h s).outcome = .returned () ∧
      foundOutputs ((getBalance W address nodeId).run h s).trace = UTXOs ∧
      printedInts ((getBalance W address nodeId).run h s).trace =
        [wrapInt (UTXOs.map TxOutput.Value).sum] ∧
      (-9223372036854775808 ≤ wrapInt (UTXOs.map TxOutput.Value).sum ∧
        wrapInt (UTXOs.map TxOutput.Value).sum < 9223372036854775808 ∧
        (18446744073709551616 : Int) ∣
          wrapInt (UTXOs.map TxOutput.Value).sum - (UTXOs.map TxOutput.Value).sum) ∧
      (-9223372036854775808 ≤ (UTXOs.map TxOutput.Value).sum →
        (UTXOs.map TxOutput.Value).sum < 9223372036854775808 →
        printedInts ((getBalance W address nodeId).run h s).trace =
          [(UTXOs.map TxOutput.Value).sum]) ∧
      (UTXOs = [] → printedInts ((getBalance W address nodeId).run h s).trace = [0]) := by
  obtain ⟨chain, UTXOs, ht, ho⟩ := getBalance_trace W h s address nodeId hvalid h5
  have hp : printedInts ((getBalance W address nodeId).run h s).trace =
      [wrapInt (UTXOs.map TxOutput.Value).sum] := by
    rw [ht]
    rfl
  refine ⟨chain, _, UTXOs, strip_decompose _ h5, ht, ho, ?_, hp, wrapInt_range _, ?_, ?_⟩
  · rw [ht]
    simp [foundOutputs, Step.found]
  · intro hlo hhi
    rw [hp, wrapInt_of_fits _ hlo hhi]
  · intro hnil
    rw [hp, hnil]
    rfl

/-- C6, the claim as worded fails: with two unspent outputs of `2^62` each locked with the hash
of the valid address `"abcdef"`, the sum of the values is `2^63` and the reported balance is
`-2^63`. -/
theorem getBalance_sum_overflows :
    sampleWallet.ValidateAddress "abcdef" = true ∧
    foundOutputs ((getBalance sampleWallet "abcdef" "3000").run sampleHandler richWorld).trace =
      [{ Value := 4611686018427387904, PubKeyHash := [98] },
       { Value := 4611686018427387904, PubKeyHash := [98] }] ∧
    ((foundOutputs ((getBalance sampleWallet "abcdef" "3000").run sampleHandler
      richWorld).trace).map TxOutput.Value).sum = 9223372036854775808 ∧
    printedInts ((getBalance sampleWallet "abcdef" "3000").run sampleHandler richWorld).trace =
      [-9223372036854775808] := by
  decide

theorem exec_of_handler {S : Sig} {σ α : Type} (h : Handler S σ) (p : Prog S α) (s : σ) :
    (p.exec (fun c s₁ => (.returned (h c s₁).1, (h c s₁).2)) s).outcome = (p.run h s).outcome ∧
    (p.exec (fun c s₁ => (.returned (h c s₁).1, (h c s₁).2)) s).state = (p.run h s).state ∧
    (p.exec (fun c s₁ => (.returned (h c s₁).1, (h c s₁).2)) s).trace =
      (p.run h s).trace.map fun st => { call := st.call, result := .returned st.resp } := by
  induction p generalizing s with
  | ret a => exact ⟨rfl, rfl, rfl⟩
  | panic e => exact ⟨rfl, rfl, rfl⟩
  | call c k ih =>
    obtain ⟨ho, hs, ht⟩ := ih (.returned (h c s).1) (h c s).2
    refine ⟨ho, hs, ?_⟩
    simp only [Prog.exec, Prog.run, List.map_cons, ht]

theorem send_relay_general {S : Sig} {σ : Type} (W : WalletFns) (env : Env S σ) (s : σ)
    (fromAddr toAddr nodeId : String) (amount : Int)
    (hfrom : W.ValidateAddress fromAddr = true) (hto : W.ValidateAddress toAddr = true) :
    minedBlocks ((send W fromAddr toAddr amount nodeId false).exec env s).trace = 0 ∧
    indexUpdates ((send W fromAddr toAddr amount nodeId false).exec env s).trace = 0 ∧
    (∀ c ∈ callsMade ((send W fromAddr toAddr amount nodeId false).exec env s).trace,
      c.writesLedger = false ∧ (c.handedTxs = [] ∨ c.isSendTx = true)) := by
  simp only [send, hfrom, hto, Prog.bind_eq, Prog.pure_eq, Prog.perform, Prog.bind,
    Prog.defer, Bool.not_true, Bool.false_eq_true, if_false, if_true, Prog.exec]
  repeat' (split <;> try simp only [Prog.bind, Prog.defer, Prog.exec])
  all_goals simp [minedBlocks, indexUpdates, callsMade, Call.isMineBlock, Call.isUpdate,
    Call.writesLedger, Call.handedTxs, Call.isSendTx]

theorem send_relay_returned {S : Sig} {σ : Type} (W : WalletFns) (env : Env S σ) (s : σ)
    (fromAddr toAddr nodeId : String) (amount : Int)
    (hfrom : W.ValidateAddress fromAddr = true) (hto : W.ValidateAddress toAddr = true)
    (hall : allReturned ((send W fromAddr toAddr amount nodeId false).exec env s).trace = true)
    (hw : walletError ((send W fromAddr toAddr amount nodeId false).exec env s).trace = none) :
    ∃ chain wallets wallet tx,
      (((send W fromAddr toAddr amount nodeId false).exec env s).trace =
          [{ call := .ContinueBlockChain nodeId, result := .returned chain },
           { call := .CreateWallets nodeId, result := .returned (wallets, none) },
           { call := .GetWallet wallets fromAddr, result := .returned wallet },
           { call := .NewTransaction wallet toAddr amount chain, result := .returned tx },
           { call := .KnownNodes, result := .returned [] },
           { call := .DatabaseClose chain, result := .returned () }] ∧
        ((send W fromAddr toAddr amount nodeId false).exec env s).outcome =
          .panicked (.indexRange 0 0)) ∨
      (∃ node nodes,
        ((send W fromAddr toAddr amount nodeId false).exec env s).trace =
          [{ call := .ContinueBlockChain nodeId, result := .returned chain },
           { call := .CreateWallets nodeId, result := .returned (wallets, none) },
           { call := .GetWallet wallets fromAddr, result := .returned wallet },
           { call := .NewTransaction wallet toAddr amount chain, result := .returned tx },
           { call := .KnownNodes, result := .returned (node :: nodes) },
           { call := .SendTx node tx, result := .returned () },
           { call := .Println "Send Tx", result := .returned () },
           { call := .Println "Success", result := .returned () },
           { call := .DatabaseClose chain, result := .returned () }] ∧
        ((send W fromAddr toAddr amount nodeId false).exec env s).outcome = .returned ()) := by
  revert hall hw
  simp only [send, hfrom, hto, Prog.bind_eq, Prog.pure_eq, Prog.perform, Prog.bind,
    Prog.defer, Bool.not_true, Bool.false_eq_true, if_false, if_true, Prog.exec]
  repeat' (split <;> try simp only [Prog.bind, Prog.defer, Prog.exec])
  all_goals intro hall hw
  all_goals first
    | (exfalso
       simp_all [allReturned, Event.isReturned, walletError, Event.walletErr]
       done)
    | (simp only [*]
       first
         | exact ⟨_, _, _, _, Or.inl ⟨rfl, by first | rfl | trivial⟩⟩
         | exact ⟨_, _, _, _, Or.inr ⟨_, _, rfl, rfl⟩⟩)

theorem exec_ledger_frame {S : Sig} {σ α L : Type} (env : Env S σ) (ledger : σ → L)
    (hframe : ∀ c s, c.writesLedger = false → ledger (env c s).2 = ledger s)
    (p : Prog S α) (s : σ)
    (hcalls : ∀ c ∈ callsMade (p.exec env s).trace, c.writesLedger = false) :
    ledger (p.exec env s).state = ledger s := by
  induction p generalizing s with
  | ret a => rfl
  | panic e => rfl
  | call c k ih =>
    simp only [Prog.exec, callsMade, List.map_cons, List.mem_cons, forall_eq_or_imp] at hcalls ⊢
    rw [ih _ _ hcalls.2, hframe c s hcalls.1]

theorem send_wallet_error {S : Sig} {σ : Type} (W : WalletFns) (env : Env S σ) (s : σ)
    (fromAddr toAddr nodeId : String) (amount : Int) (mineNow : Bool)
    (hfrom : W.ValidateAddress fromAddr = true) (hto : W.ValidateAddress toAddr = true)
    (e : String)
    (hw : walletError ((send W fromAddr toAddr amount nodeId mineNow).exec env s).trace =
      some e) :
    minedBlocks ((send W fromAddr toAddr amount nodeId mineNow).exec env s).trace = 0 ∧
    indexUpdates ((send W fromAddr toAddr amount nodeId mineNow).exec env s).trace = 0 ∧
    ∃ p, ((send W fromAddr toAddr amount nodeId mineNow).exec env s).outcome = .panicked p ∧
      (allReturned ((send W fromAddr toAddr amount nodeId mineNow).exec env s).trace = true →
        p = .logPanic e) := by
  revert hw
  cases mineNow <;>
  simp only [send, hfrom, hto, Prog.bind_eq, Prog.pure_eq, Prog.perform, Prog.bind,
    Prog.defer, Bool.not_true, Bool.false_eq_true, if_false, if_true, Prog.exec]
  all_goals repeat' (split <;> try simp only [Prog.bind, Prog.defer, Prog.exec])
  all_goals intro hw
  all_goals first
    | (exfalso
       simp_all [walletError, Event.walletErr]
       done)
    | simp_all [walletError, Event.walletErr, minedBlocks, indexUpdates, callsMade,
        Call.isMineBlock, Call.isUpdate, allReturned, Event.isReturned]

theorem send_mine_general {S : Sig} {σ : Type} (W : WalletFns) (env : Env S σ) (s : σ)
    (fromAddr toAddr nodeId : String) (amount : Int)
    (hfrom : W.ValidateAddress fromAddr = true) (hto : W.ValidateAddress toAddr = true) :
    minedBlocks ((send W fromAddr toAddr amount nodeId true).exec env s).trace ≤ 1 ∧
    indexUpdates ((send W fromAddr toAddr amount nodeId true).exec env s).trace ≤
      minedBlocks ((send W fromAddr toAddr amount nodeId true).exec env s).trace ∧
    (((send W fromAddr toAddr amount nodeId true).exec env s).outcome = .returned () →
      allReturned ((send W fromAddr toAddr amount nodeId true).exec env s).trace = true ∧
      walletError ((send W fromAddr toAddr amount nodeId true).exec env s).trace = none) := by
  simp only [send, hfrom, hto, Prog.bind_eq, Prog.pure_eq, Prog.perform, Prog.bind,
    Prog.defer, Bool.not_true, Bool.false_eq_true, if_false, if_true, Prog.exec]
  repeat' (split <;> try simp only [Prog.bind, Prog.defer, Prog.exec])
  all_goals simp_all [minedBlocks, indexUpdates, callsMade, Call.isMineBlock, Call.isUpdate,
    allReturned, Event.isReturned, walletError, Event.walletErr]

theorem send_mine_returned {S : Sig} {σ : Type} (W : WalletFns) (env : Env S σ) (s : σ)
    (fromAddr toAddr nodeId : String) (amount : Int)
    (hfrom : W.ValidateAddress fromAddr = true) (hto : W.ValidateAddress toAddr = true)
    (hall : allReturned ((send W fromAddr toAddr amount nodeId true).exec env s).trace = true)
    (hw : walletError ((send W fromAddr toAddr amount nodeId true).exec env s).trace = none) :
    ∃ chain wallets wallet tx cbTx block,
      ((send W fromAddr toAddr amount nodeId true).exec env s).trace =
        [{ call := .ContinueBlockChain nodeId, result := .returned chain },
         { call := .CreateWallets nodeId, result := .returned (wallets, none) },
         { call := .GetWallet wallets fromAddr, result := .returned wallet },
         { call := .NewTransaction wallet toAddr amount chain, result := .returned tx },
         { call := .CoinbaseTx fromAddr "", result := .returned cbTx },
         { call := .MineBlock chain [cbTx, tx], result := .returned block },
         { call := .Update chain block, result := .returned () },
         { call := .Println "Success", result := .returned () },
         { call := .DatabaseClose chain, result := .returned () }] ∧
      ((send W fromAddr toAddr amount nodeId true).exec env s).outcome = .returned () := by
  revert hall hw
  simp only [send, hfrom, hto, Prog.bind_eq, Prog.pure_eq, Prog.perform, Prog.bind,
    Prog.defer, Bool.not_true, Bool.false_eq_true, if_false, if_true, Prog.exec]
  repeat' (split <;> try simp only [Prog.bind, Prog.defer, Prog.exec])
  all_goals intro hall hw
  all_goals first
    | (exfalso
       simp_all [allReturned, Event.isReturned, walletError, Event.walletErr]
       done)
    | (simp only [*]
       exact ⟨_, _, _, _, _, _, rfl, rfl⟩)

/-- C7 (as the code has it): for every `send` with valid `from` and `to` addresses, in every
environment, where a call may return or panic.

When `mineNow` is false, no block is mined and `UTXOSet.Update` is never called: `send` makes no
call that writes the chain or the UTXO index (`InitBlockChain`, `MineBlock`, `Reindex`,
`Update`), so a ledger that only those calls write is after `send` what it was before, and the
only call handed a transaction is `network.SendTx`; when every call returns and
`wallet.CreateWallets` reports no error, the calls are exactly those of the relay path, the
built transaction going to `SendTx` with the first known node.

When `mineNow` is true, `wallet.CreateWallets` reports no error and every call returns, exactly
one block is mined, made of the coinbase transaction paying `from` followed by the built
transaction, and `UTXOSet.Update` is called exactly once, on that block. In every case
`MineBlock` is called at most once and `Update` at most once and only after `MineBlock`, and
`send` returns only when every call returned without a wallet error.

When `wallet.CreateWallets` reports an error, `send` panics (with that error when every call
returns) and neither `MineBlock` nor `Update` is called. -/
theorem send_mining_effects {S : Sig} {σ : Type} (W : WalletFns) (env : Env S σ) (s : σ)
    (fromAddr toAddr : String) (amount : Int) (nodeId : String) (mineNow : Bool)
    (hfrom : W.ValidateAddress fromAddr = true) (hto : W.ValidateAddress toAddr = true) :
    (mineNow = false →
      minedBlocks ((send W fromAddr toAddr amount nodeId mineNow).exec env s).trace = 0 ∧ indexUpdates ((send W fromAddr toAddr amount nodeId mineNow).exec env s).trace = 0 ∧
      (∀ c ∈ callsMade ((send W fromAddr toAddr amount nodeId mineNow).exec env s).trace,
        c.writesLedger = false ∧ (c.handedTxs = [] ∨ c.isSendTx = true)) ∧
      (∀ (L : Type) (ledger : σ → L),
        (∀ c s₁, c.writesLedger = false → ledger (env c s₁).2 = ledger s₁) →
        ledger ((send W fromAddr toAddr amount nodeId mineNow).exec env s).state = ledger s) ∧
      (allReturned ((send W fromAddr toAddr amount nodeId mineNow).exec env s).trace = true → walletError ((send W fromAddr toAddr amount nodeId mineNow).exec env s).trace = none →
        ∃ chain wallets wallet tx,
          (((send W fromAddr toAddr amount nodeId mineNow).exec env s).trace =
              [{ call := .ContinueBlockChain nodeId, result := .returned chain },
               { call := .CreateWallets nodeId, result := .returned (wallets, none) },
               { call := .GetWallet wallets fromAddr, result := .returned wallet },
               { call := .NewTransaction wallet toAddr amount chain, result := .returned tx },
               { call := .KnownNodes, result := .returned [] },
               { call := .DatabaseClose chain, result := .returned () }] ∧
            ((send W fromAddr toAddr amount nodeId mineNow).exec env s).outcome = .panicked (.indexRange 0 0)) ∨
          (∃ node nodes,
            ((send W fromAddr toAddr amount nodeId mineNow).exec env s).trace =
              [{ call := .ContinueBlockChain nodeId, result := .returned chain },
               { call := .CreateWallets nodeId, result := .returned (wallets, none) },
               { call := .GetWallet wallets fromAddr, result := .returned wallet },
               { call := .NewTransaction wallet toAddr amount chain, result := .returned tx },
               { call := .KnownNodes, result := .returned (node :: nodes) },
               { call := .SendTx node tx, result := .returned () },
               { call := .Println "Send Tx", result := .returned () },
               { call := .Println "Success", result := .returned () },
               { call := .DatabaseClose chain, result := .returned () }] ∧
            ((send W fromAddr toAddr amount nodeId mineNow).exec env s).outcome = .returned ()))) ∧
    (mineNow = true →
      minedBlocks ((send W fromAddr toAddr amount nodeId mineNow).exec env s).trace ≤ 1 ∧ indexUpdates ((send W fromAddr toAddr amount nodeId mineNow).exec env s).trace ≤ minedBlocks ((send W fromAddr toAddr amount nodeId mineNow).exec env s).trace ∧
      (((send W fromAddr toAddr amount nodeId mineNow).exec env s).outcome = .returned () → allReturned ((send W fromAddr toAddr amount nodeId mineNow).exec env s).trace = true ∧ walletError ((send W fromAddr toAddr amount nodeId mineNow).exec env s).trace = none) ∧
      (allReturned ((send W fromAddr toAddr amount nodeId mineNow).exec env s).trace = true → walletError ((send W fromAddr toAddr amount nodeId mineNow).exec env s).trace = none →
        ∃ chain wallets wallet tx cbTx block,
          ((send W fromAddr toAddr amount nodeId mineNow).exec env s).trace =
            [{ call := .ContinueBlockChain nodeId, result := .returned chain },
             { call := .CreateWallets nodeId, result := .returned (wallets, none) },
             { call := .GetWallet wallets fromAddr, result := .returned wallet },
             { call := .NewTransaction wallet toAddr amount chain, result := .returned tx },
             { call := .CoinbaseTx fromAddr "", result := .returned cbTx },
             { call := .MineBlock chain [cbTx, tx], result := .returned block },
             { call := .Update chain block, result := .returned () },
             { call := .Println "Success", result := .returned () },
             { call := .DatabaseClose chain, result := .returned () }] ∧
          ((send W fromAddr toAddr amount nodeId mineNow).exec env s).outcome = .returned () ∧
          minedBlocks ((send W fromAddr toAddr amount nodeId mineNow).exec env s).trace = 1 ∧ indexUpdates ((send W fromAddr toAddr amount nodeId mineNow).exec env s).trace = 1)) ∧
    (∀ e, walletError ((send W fromAddr toAddr amount nodeId mineNow).exec env s).trace = some e →
      minedBlocks ((send W fromAddr toAddr amount nodeId mineNow).exec env s).trace = 0 ∧ indexUpdates ((send W fromAddr toAddr amount nodeId mineNow).exec env s).trace = 0 ∧
      ∃ p, ((send W fromAddr toAddr amount nodeId mineNow).exec env s).outcome = .panicked p ∧ (allReturned ((send W fromAddr toAddr amount nodeId mineNow).exec env s).trace = true → p = .logPanic e)) := by
  refine ⟨?_, ?_, fun e he =>
    send_wallet_error W env s fromAddr toAddr nodeId amount mineNow hfrom hto e he⟩
  · rintro rfl
    obtain ⟨hm, hu, hc⟩ := send_relay_general W env s fromAddr toAddr nodeId amount hfrom hto
    refine ⟨hm, hu, hc, fun L ledger hframe => ?_, fun hall hw => ?_⟩
    · exact exec_ledger_frame env ledger hframe _ s (fun c hmem => (hc c hmem).1)
    · exact send_relay_returned W env s fromAddr toAddr nodeId amount hfrom hto hall hw
  · rintro rfl
    obtain ⟨hm, hu, hr⟩ := send_mine_general W env s fromAddr toAddr nodeId amount hfrom hto
    refine ⟨hm, hu, hr, fun hall hw => ?_⟩
    obtain ⟨chain, wallets, wallet, tx, cbTx, block, ht, ho⟩ :=
      send_mine_returned W env s fromAddr toAddr nodeId amount hfrom hto hall hw
    refine ⟨chain, wallets, wallet, tx, cbTx, block, ht, ho, ?_, ?_⟩
    · rw [ht]
      rfl
    · rw [ht]
      rfl

/-- C7, the claim as worded fails: with valid `from` and `to` addresses and `mineNow` true, on a
node whose wallet file cannot be loaded `send` panics with that error: no block is mined and
`UTXOSet.Update` is not called. -/
theorem send_mineNow_wallet_error :
    sampleWallet.ValidateAddress "abcdef" = true ∧
    sampleWallet.ValidateAddress "bobby" = true ∧
    ((send sampleWallet "abcdef" "bobby" 3 "3000" true).exec sampleEnv noWalletWorld).outcome
      = .panicked (.logPanic "open wallet file: no such file or directory") ∧
    minedBlocks
      ((send sampleWallet "abcdef" "bobby" 3 "3000" true).exec sampleEnv noWalletWorld).trace
      = 0 ∧
    indexUpdates
      ((send sampleWallet "abcdef" "bobby" 3 "3000" true).exec sampleEnv noWalletWorld).trace
      = 0 := by
  decide

/-- C8: an invalid address is turned away before anything reaches the core. For each of
`getBalance`, `createBlockChain` and `send`, when `wallet.ValidateAddress` answers false for a
supplied address (for `send`: the sender's or the receiver's), the command is nothing but the
`log.Panic`: it panics without a single call made -- the chain is not opened, no address is
decoded or sliced, no transaction, block or UTXO operation takes place -- and the world is as
before. -/
theorem invalid_address_panics_first {S : Sig} {σ : Type} (W : WalletFns) (h : Handler S σ)
    (s : σ) (address fromAddr toAddr nodeId : String) (amount : Int) (mineNow : Bool)
    (hbad : W.ValidateAddress address = false)
    (hsend : W.ValidateAddress fromAddr = false ∨ W.ValidateAddress toAddr = false) :
    ((getBalance W address nodeId : Prog S Unit) = .panic (.logPanic "Address is not valid") ∧
      (getBalance W address nodeId).run h s =
        { trace := [], outcome := .panicked (.logPanic "Address is not valid"), state := s }) ∧
    ((createBlockChain W address nodeId : Prog S Unit) =
        .panic (.logPanic "Address is not valid") ∧
      (createBlockChain W address nodeId).run h s =
        { trace := [], outcome := .panicked (.logPanic "Address is not valid"), state := s }) ∧
    ((send W fromAddr toAddr amount nodeId mineNow : Prog S Unit) =
        .panic (.logPanic (if W.ValidateAddress fromAddr = true
          then "Reciever Address is not valid" else "Sender Address is not valid")) ∧
      (send W fromAddr toAddr amount nodeId mineNow).run h s =
        { trace := [],
          outcome := .panicked (.logPanic (if W.ValidateAddress fromAddr = true
            then "Reciever Address is not valid" else "Sender Address is not valid")),
          state := s }) := by
  have hg : (getBalance W address nodeId : Prog S Unit) =
      .panic (.logPanic "Address is not valid") := by
    simp only [getBalance, hbad, Prog.bind_eq, Prog.bind, Bool.not_false, if_true]
  have hc : (createBlockChain W address nodeId : Prog S Unit) =
      .panic (.logPanic "Address is not valid") := by
    simp only [createBlockChain, hbad, Prog.bind_eq, Prog.bind, Bool.not_false, if_true]
  have hs : (send W fromAddr toAddr amount nodeId mineNow : Prog S Unit) =
      .panic (.logPanic (if W.ValidateAddress fromAddr = true
        then "Reciever Address is not valid" else "Sender Address is not valid")) := by
    cases hf : W.ValidateAddress fromAddr with
    | false =>
      simp only [send, hf, Prog.bind_eq, Prog.bind, Bool.not_false, if_true,
        Bool.false_eq_true, if_false]
    | true =>
      have ht : W.ValidateAddress toAddr = false := by
        rcases hsend with h1 | h1
        · rw [hf] at h1
          cases h1
        · exact h1
      simp only [send, hf, ht, Prog.bind_eq, Prog.pure_eq, Prog.bind, Bool.not_false,
        Bool.not_true, Bool.false_eq_true, if_true, if_false]
  refine ⟨⟨hg, ?_⟩, ⟨hc, ?_⟩, ⟨hs, ?_⟩⟩
  · rw [hg]
    rfl
  · rw [hc]
    rfl
  · rw [hs]
    rfl

/-! ## Worked instances -/

/-- C2 at the 8-byte payload `[0, 17, 34, 51, 10, 11, 12, 13]`: the hash stored is
`[17, 34, 51]`. -/
theorem Lock_stores_stripped_payload_witness :
    5 ≤ (sampleWallet.Base58Decode [0, 17, 34, 51, 10, 11, 12, 13]).length ∧
    (Lock sampleWallet { Value := 7, PubKeyHash := [] } [0, 17, 34, 51, 10, 11, 12, 13]).1 =
      .returned () ∧
    (Lock sampleWallet { Value := 7, PubKeyHash := [] }
      [0, 17, 34, 51, 10, 11, 12, 13]).2.Value = 7 ∧
    (Lock sampleWallet { Value := 7, PubKeyHash := [] }
      [0, 17, 34, 51, 10, 11, 12, 13]).2.PubKeyHash.length = 8 - 5 :=
  have key := Lock_stores_stripped_payload sampleWallet { Value := 7, PubKeyHash := [] }
    [0, 17, 34, 51, 10, 11, 12, 13] (by decide)
  ⟨by decide, key.1, key.2.1, key.2.2.2.2.1⟩

/-- C4 at the payloads `[0, 17, 34, 51, 10, 11, 12, 13]` and `[0, 17, 34, 52, 10, 11, 12, 13]`. -/
theorem Lock_IsLockedWithKey_roundtrip_witness :
    5 ≤ (sampleWallet.Base58Decode [0, 17, 34, 51, 10, 11, 12, 13]).length ∧
    5 ≤ (sampleWallet.Base58Decode [0, 17, 34, 52, 10, 11, 12, 13]).length ∧
    ∃ hashA hashB,
      sliceExpr (sampleWallet.Base58Decode [0, 17, 34, 51, 10, 11, 12, 13]) 1
        (((sampleWallet.Base58Decode [0, 17, 34, 51, 10, 11, 12, 13]).length : Int) - 4) =
          .returned hashA ∧
      sliceExpr (sampleWallet.Base58Decode [0, 17, 34, 52, 10, 11, 12, 13]) 1
        (((sampleWallet.Base58Decode [0, 17, 34, 52, 10, 11, 12, 13]).length : Int) - 4) =
          .returned hashB ∧
      ((IsLockedWithKey (Lock sampleWallet { Value := 7, PubKeyHash := [] }
        [0, 17, 34, 51, 10, 11, 12, 13]).2 hashB).1 = true ↔ hashA = hashB) :=
  have ⟨hashA, hashB, hA, hB, _, _, _, hiff, _, _⟩ :=
    Lock_IsLockedWithKey_roundtrip sampleWallet { Value := 7, PubKeyHash := [] }
      [0, 17, 34, 51, 10, 11, 12, 13] [0, 17, 34, 52, 10, 11, 12, 13] (by decide) (by decide)
  ⟨by decide, by decide, hashA, hashB, hA, hB, hiff⟩

/-- C6 at the address `"abcdef"` in a world with two outputs locked with its hash. -/
theorem getBalance_reports_wrapped_sum_witness :
    sampleWallet.ValidateAddress "abcdef" = true ∧
    5 ≤ (sampleWallet.Base58Decode (bytesOf "abcdef")).length ∧
    ∃ UTXOs,
      foundOutputs ((getBalance sampleWallet "abcdef" "3000").run sampleHandler
        richWorld).trace = UTXOs ∧
      printedInts ((getBalance sampleWallet "abcdef" "3000").run sampleHandler
        richWorld).trace = [wrapInt (UTXOs.map TxOutput.Value).sum] :=
  have ⟨_, _, UTXOs, _, _, _, hf, hp, _, _, _⟩ :=
    getBalance_reports_wrapped_sum sampleWallet sampleHandler richWorld "abcdef" "3000"
      (by decide) (by decide)
  ⟨by decide, by decide, UTXOs, hf, hp⟩

/-- C7 at a `send` of 3 from `"abcdef"`, who owns two outputs, to `"bobby"` with `mineNow`
true, the wallet file at hand: every call returns and one block is mined. -/
theorem send_mining_effects_witness :
    sampleWallet.ValidateAddress "abcdef" = true ∧
    sampleWallet.ValidateAddress "bobby" = true ∧
    allReturned ((send sampleWallet "abcdef" "bobby" 3 "3000" true).exec sampleEnv
      richWorld).trace = true ∧
    walletError ((send sampleWallet "abcdef" "bobby" 3 "3000" true).exec sampleEnv
      richWorld).trace = none ∧
    minedBlocks ((send sampleWallet "abcdef" "bobby" 3 "3000" true).exec sampleEnv
      richWorld).trace = 1 ∧
    indexUpdates ((send sampleWallet "abcdef" "bobby" 3 "3000" true).exec sampleEnv
      richWorld).trace = 1 :=
  have ⟨_, _, _, _, _, _, _, _, hm, hu⟩ :=
    (send_mining_effects sampleWallet sampleEnv richWorld "abcdef" "bobby" 3 "3000" true
      (by decide) (by decide)).2.1 rfl |>.2.2.2 (by decide) (by decide)
  ⟨by decide, by decide, by decide, by decide, hm, hu⟩

/-- A `send` of 1000000 from `"bobby"`, who owns nothing, with `mineNow` true:
`NewTransaction` panics, `send` panics with it, and nothing is mined or updated. -/
theorem send_insufficient_funds_instance :
    sampleFunds richWorld "bobby" = 0 ∧
    ((send sampleWallet "bobby" "abcdef" 1000000 "3000" true).exec sampleEnv richWorld).outcome
      = .panicked (.logPanic "Error: not enough funds") ∧
    allReturned ((send sampleWallet "bobby" "abcdef" 1000000 "3000" true).exec sampleEnv
      richWorld).trace = false ∧
    minedBlocks ((send sampleWallet "bobby" "abcdef" 1000000 "3000" true).exec sampleEnv
      richWorld).trace = 0 ∧
    indexUpdates ((send sampleWallet "bobby" "abcdef" 1000000 "3000" true).exec sampleEnv
      richWorld).trace = 0 := by
  decide

/-- C8 at the address `"abc"`, which `sampleWallet` turns away. -/
theorem invalid_address_panics_first_witness :
    sampleWallet.ValidateAddress "abc" = false ∧
    (sampleWallet.ValidateAddress "alice" = false ∨
      sampleWallet.ValidateAddress "abc" = false) ∧
    ((getBalance sampleWallet "abc" "3000").run sampleHandler richWorld).trace = [] ∧
    ((createBlockChain sampleWallet "abc" "3000").run sampleHandler richWorld).trace = [] ∧
    ((send sampleWallet "alice" "abc" 3 "3000" true).run sampleHandler richWorld).trace = [] :=
  have key := invalid_address_panics_first sampleWallet sampleHandler richWorld "abc" "alice"
    "abc" "3000" 3 true (by decide) (Or.inr (by decide))
  ⟨by decide, Or.inr (by decide), congrArg Run.trace key.1.2, congrArg Run.trace key.2.1.2,
    congrArg Run.trace key.2.2.2⟩

/-- C9 at `NewTxOutput(20, "abcdef")`. -/
theorem NewTxOutput_keeps_value_witness :
    (Lock sampleWallet { Value := 20, PubKeyHash := [] } (bytesOf "abcdef")).1 = .returned () ∧
    ∃ txo, NewTxOutput sampleWallet 20 "abcdef" = .returned txo ∧ txo.Value = 20 :=
  have ⟨txo, hr, hv, _, _⟩ := NewTxOutput_keeps_value sampleWallet 20 "abcdef" (by decide)
  ⟨by decide, txo, hr, hv⟩

/-- C10 at two payloads that differ in the version byte and in the checksum only. -/
theorem Lock_ignores_version_and_checksum_witness :
    (sampleWallet.Base58Decode [0, 17, 34, 51, 10, 11, 12, 13]).length =
      (sampleWallet.Base58Decode [5, 17, 34, 51, 1, 2, 3, 4]).length ∧
    5 ≤ (sampleWallet.Base58Decode [0, 17, 34, 51, 10, 11, 12, 13]).length ∧
    (Lock sampleWallet { Value := 7, PubKeyHash := [] }
        [0, 17, 34, 51, 10, 11, 12, 13]).2.PubKeyHash =
      (Lock sampleWallet { Value := 9, PubKeyHash := [1] }
        [5, 17, 34, 51, 1, 2, 3, 4]).2.PubKeyHash :=
  ⟨by decide, by decide,
    (Lock_ignores_version_and_checksum sampleWallet { Value := 7, PubKeyHash := [] }
      { Value := 9, PubKeyHash := [1] } [0, 17, 34, 51, 10, 11, 12, 13]
      [5, 17, 34, 51, 1, 2, 3, 4] (by decide) (by decide)
      (fun i h1 h2 => by
        have h3 : i < 4 := h2
        have h4 : i = 1 ∨ i = 2 ∨ i = 3 := by omega
        rcases h4 with rfl | rfl | rfl <;> rfl)).2.2.1⟩

end GoBlockchain
